import Mathlib

/-!
Verification of the date-time skill's location/timezone logic.

The Python source (`__init__.py`) is shallowly embedded below.  External
collaborators (the astral city table, `pytz.timezone` validation,
`pytz.all_timezones`, the `fuzzy_match` scorer, the translated-value table,
the `ask_yesno` dialog, the geolocation API, the configuration store and the
regular-expression engine) are modelled as parameters of an environment
structure; the skill's own control flow is translated line by line.

Python strings are modelled as Lean `String`s, float similarity scores as
`ℚ`, and Python exceptions as an explicit `Except` result.  Spoken prompts
and notifications are collected in an output list so that "exactly one
prompt" style properties are statable.
-/

/-- Python exceptions that the embedded code can raise or catch. -/
inductive PyExc where
  | unknownTimeZone (code : String)
  | keyError
  | other
deriving DecidableEq, Repr

/-- `str.lower` restricted to ASCII, which is all that appears in timezone
identifiers and the lookup tables. -/
def pyLower (s : String) : String :=
  String.mk (s.data.map Char.toLower)

/-- `str.strip()`: remove leading and trailing whitespace. -/
def pyStrip (s : String) : String :=
  String.mk (((s.data.dropWhile Char.isWhitespace).reverse.dropWhile
      Char.isWhitespace).reverse)

/-- `str.split('/')` on a character list: always returns at least one
(possibly empty) component, exactly like Python's `split`. -/
def splitOnSlash : List Char → List (List Char)
  | [] => [[]]
  | c :: cs =>
    match splitOnSlash cs with
    | [] => [[]]
    | h :: t => if c = '/' then [] :: h :: t else (c :: h) :: t

/-- `name.lower().replace("_", " ").split("/")` from line 155 of the source.
Lowercasing and replacing underscores commute, so they are fused into one
character map. -/
def normalizeTz (name : String) : List String :=
  (splitOnSlash (name.data.map
    (fun c => let c := c.toLower; if c = '_' then ' ' else c))).map String.mk

/-- Python's binary `max` on exact scores. -/
def pyMax (a b : ℚ) : ℚ := if a ≤ b then b else a

/-- The score the fuzzy tier assigns to one timezone identifier against the
lowercased target (source lines 155-162): for single-component identifiers,
one comparison; otherwise the maximum of comparing component 1, the
second-to-last plus last components, and the last plus second-to-last
components. -/
def tzScore (fm : String → String → ℚ) (name target : String) : ℚ :=
  if (normalizeTz name).length = 1 then
    fm ((normalizeTz name).headD "") target
  else
    pyMax (fm ((normalizeTz name).getD 1 "") target)
      (pyMax (fm ((normalizeTz name).getD ((normalizeTz name).length - 2) "" ++ " " ++
          (normalizeTz name).getLastD "") target)
        (fm ((normalizeTz name).getLastD "" ++ " " ++
          (normalizeTz name).getD ((normalizeTz name).length - 2) "") target))

/-- The strings an identifier is compared against in the fuzzy tier; its
score is the maximum of `fm s target` over `s ∈ compStrings name`. -/
def compStrings (name : String) : List String :=
  if (normalizeTz name).length = 1 then
    [(normalizeTz name).headD ""]
  else
    [(normalizeTz name).getD 1 "",
     (normalizeTz name).getD ((normalizeTz name).length - 2) "" ++ " " ++
       (normalizeTz name).getLastD "",
     (normalizeTz name).getLastD "" ++ " " ++
       (normalizeTz name).getD ((normalizeTz name).length - 2) ""]

/-- The fuzzy-match loop of source lines 153-164: fold over
`pytz.all_timezones`, keeping `(pct, name)` and updating whenever
`pct >= best[0]` (so a later identifier with an equal score overwrites an
earlier one). -/
def fuzzyBest (fm : String → String → ℚ) (tzs : List String) (target : String) :
    Option (ℚ × String) :=
  tzs.foldl
    (fun best name =>
      let pct := tzScore fm name target
      match best with
      | none => some (pct, name)
      | some b => if pct ≥ b.1 then some (pct, name) else some b)
    none

/-- `re.sub(r"([a-z])([A-Z])", r"\g<1> \g<2>", ...)` from source line 170:
insert a space between a lowercase letter immediately followed by an
uppercase letter. -/
def camelSplit : List Char → List Char
  | [] => []
  | [c] => [c]
  | a :: b :: rest =>
    if a.isLower && b.isUpper then a :: ' ' :: camelSplit (b :: rest)
    else a :: camelSplit (b :: rest)

/-- `" ".join(parts)`. -/
def joinSpace : List (List Char) → List Char
  | [] => []
  | [x] => x
  | x :: xs => x ++ ' ' :: joinSpace xs

/-- The speakable rendering built at source lines 170-174: split camel-case
boundaries, replace underscores with spaces, split the region hierarchy on
`/`, reverse it, and join with spaces. -/
def speakableName (name : String) : String :=
  String.mk (joinSpace
    ((splitOnSlash ((camelSplit name.data).map
        (fun c => if c = '_' then ' ' else c))).reverse))

/-- Environment of external collaborators for `get_timezone`. -/
structure TzEnv where
  /-- `self.astral[locale].timezone`; `none` models a raised lookup error. -/
  astralTz : String → Option String
  /-- Whether `pytz.timezone` accepts an identifier (else it raises
  `UnknownTimeZoneError`). -/
  pytzValid : String → Bool
  /-- `self.translate_namedvalues("timezone.value")` as an association list
  in iteration order. -/
  translations : List (String × String)
  /-- `pytz.all_timezones` in list order. -/
  allTimezones : List String
  /-- `fuzzy_match`, modelled with exact rational scores. -/
  fm : String → String → ℚ
  /-- The answer `ask_yesno` produces for a given spoken zone name. -/
  askYesNo : String → String

/-- First `try` block (source lines 124-128): the astral city table followed
by `pytz.timezone`; any exception is swallowed, yielding `none`. -/
def astralLookup (env : TzEnv) (locale : String) : Option String :=
  (env.astralTz locale).bind
    (fun code => if env.pytzValid code then some code else none)

/-- The direct-lookup tier (source lines 124-134): the astral table, then the
locale itself as a literal region/city identifier; exceptions in either
attempt are swallowed. -/
def directLookup (env : TzEnv) (locale : String) : Option String :=
  match astralLookup env locale with
  | some tz => some tz
  | none => if env.pytzValid locale then some locale else none

/-- The translated-value table scan (source lines 140-141): the first key
equal to the locale case-insensitively, yielding its value. -/
def translatedLookup? (translations : List (String × String)) (locale : String) :
    Option String :=
  translations.findSome?
    (fun kv => if pyLower locale = pyLower kv.1 then some kv.2 else none)

/-- The fuzzy tier and its confirmation dialog (source lines 152-178).  The
returned list collects the zone names spoken by `ask_yesno`.  The source's
float thresholds 0.8 and 0.3 are the exact rationals `mkRat 4 5` and
`mkRat 3 10`. -/
def fuzzyTier (env : TzEnv) (locale : String) :
    Except PyExc (Option String × List String) :=
  let target := pyLower locale
  match fuzzyBest env.fm env.allTimezones target with
  | none => .ok (none, [])
  | some (pct, name) =>
    if pct > mkRat 4 5 then
      if env.pytzValid name then .ok (some name, [])
      else .error (.unknownTimeZone name)
    else if pct > mkRat 3 10 then
      let say := speakableName name
      if env.askYesNo say = "yes" then
        if env.pytzValid name then .ok (some name, [say])
        else .error (.unknownTimeZone name)
      else .ok (none, [say])
    else .ok (none, [])

/-- `get_timezone` (source lines 123-178).  Returns the resolved identifier
(or `none`) together with the confirmation prompts issued, or a raised
exception.  Note that the translated-value tier's
`pytz.timezone(timezones[timezone].strip())` at line 143 is *not* inside a
`try` block, so an invalid translation value raises to the caller. -/
def get_timezone (env : TzEnv) (locale : String) :
    Except PyExc (Option String × List String) :=
  match directLookup env locale with
  | some tz => .ok (some tz, [])
  | none =>
    match translatedLookup? env.translations locale with
    | some v =>
      let code := pyStrip v
      if env.pytzValid code then .ok (some code, [])
      else .error (.unknownTimeZone code)
    | none => fuzzyTier env locale

example : normalizeTz "America/North_Dakota/Center" =
    ["america", "north dakota", "center"] := by decide

example : speakableName "America/North_Dakota/Center" =
    "Center North Dakota America" := by decide

example : speakableName "Pacific/EasterIsland" = "Easter Island Pacific" := by
  decide

/-- Outcome of calling `self.geolocation_api.get_geolocation(location)`:
either a response whose `timezone` field may be present or absent (an absent
field raises `KeyError` on access), or a raised exception (network or lookup
failure). -/
inductive GeoOutcome where
  | ok (tzField : Option String)
  | raise (e : PyExc)
deriving DecidableEq, Repr

/-- Environment of external collaborators for `_get_timezone`. -/
structure LocEnv where
  /-- `self.config_core['location']['timezone']['code']`; `none` models a
  `KeyError` raised anywhere in the nested access. -/
  configTzCode : Option String
  /-- The geolocation API call. -/
  geo : String → GeoOutcome
  /-- Whether `pytz.timezone` accepts an identifier. -/
  pytzValid : String → Bool

/-- `_get_timezone` (source lines 476-496).  Returns the timezone (or
`none`) together with the `time.tz.not.found` notifications spoken, each
carrying the location that was passed (possibly `None`).  The `try` block
catches `KeyError` only; the `else` clause catches
`pytz.exceptions.UnknownTimeZoneError` from `pytz.timezone`.  Any other
exception raised by the geolocation call propagates. -/
def _get_timezone (env : LocEnv) (location : Option String) :
    Except PyExc (Option String × List (Option String)) :=
  let tzE : Except PyExc (Option String) :=
    match location with
    | none =>
      match env.configTzCode with
      | none => .ok none
      | some code => .ok (if env.pytzValid code then some code else none)
    | some loc =>
      match env.geo loc with
      | .raise .keyError => .ok none
      | .raise e => .error e
      | .ok none => .ok none
      | .ok (some code) => .ok (if env.pytzValid code then some code else none)
  match tzE with
  | .error e => .error e
  | .ok none => .ok (none, [location])
  | .ok (some tz) => .ok (some tz, [])

/-- Outcome of `re.search(pattern, utterance)` followed by
`match.group("Location")`: no match; a match whose pattern has no group
named `Location` (`IndexError`); or a match whose `Location` group returns
`s` (`none` when the group did not participate in the match). -/
inductive MatchOutcome where
  | noMatch
  | indexError
  | group (s : Option String)
deriving DecidableEq, Repr

/-- `_extract_location` (source lines 442-456), with each compiled pattern
modelled as a function from the utterance to its match outcome.  A raised
`IndexError` is swallowed and the next pattern is tried; a successful
capture breaks the loop.  A match whose `Location` group did not
participate returns `None` from `group`, and the subsequent debug-log
string concatenation with `None` raises a `TypeError` (modelled as
`PyExc.other`). -/
def _extract_location (patterns : List (String → MatchOutcome))
    (utterance : String) : Except PyExc (Option String) :=
  match patterns with
  | [] => .ok none
  | p :: ps =>
    match p utterance with
    | .noMatch => _extract_location ps utterance
    | .indexError => _extract_location ps utterance
    | .group none => .error .other
    | .group (some s) => .ok (some s)

/-- The `Location` capture of the first pattern that matches and captures
the group, skipping patterns that do not match or lack the group. -/
def firstCapture (patterns : List (String → MatchOutcome))
    (utterance : String) : Option String :=
  patterns.findSome? (fun p =>
    match p utterance with
    | .group (some s) => some s
    | _ => none)

/-- `is_leap_year` (source lines 634-635). -/
def is_leap_year (year : Int) : Bool :=
  (year % 400 == 0) || ((year % 4 == 0) && (year % 100 != 0))

lemma leap_after (year : Int) : ∃ n : Nat, is_leap_year (year + 1 + n) = true := by
  refine ⟨((400 - (year + 1) % 400) % 400).toNat, ?_⟩
  have h400 : (0:Int) < 400 := by norm_num
  have hnn : (0:Int) ≤ (400 - (year + 1) % 400) % 400 :=
    Int.emod_nonneg _ (by norm_num)
  have hcast : (((400 - (year + 1) % 400) % 400).toNat : Int) =
      (400 - (year + 1) % 400) % 400 := Int.toNat_of_nonneg hnn
  rw [hcast]
  have hdvd : (year + 1 + (400 - (year + 1) % 400) % 400) % 400 = 0 := by
    omega
  simp [is_leap_year, hdvd]

/-- Number of recursion steps `get_next_leap_year` will take from `year`:
the least `n` with `year + 1 + n` a leap year. -/
def leapDist (year : Int) : Nat :=
  Nat.find (leap_after year)

lemma leapDist_decreasing (year : Int) (h : ¬ is_leap_year (year + 1) = true) :
    leapDist (year + 1) < leapDist year := by
  have hpos : 0 < leapDist year := by
    rw [leapDist, Nat.find_pos]
    simpa using h
  have hspec : is_leap_year (year + 1 + (leapDist year : Int)) = true :=
    Nat.find_spec (leap_after year)
  have hshift : is_leap_year (year + 1 + 1 + ((leapDist year - 1 : Nat) : Int)) = true := by
    have : (((leapDist year - 1 : Nat)) : Int) = (leapDist year : Int) - 1 := by
      omega
    rw [this]
    have : year + 1 + 1 + ((leapDist year : Int) - 1) = year + 1 + (leapDist year : Int) := by
      ring
    rw [this]
    exact hspec
  have hle : leapDist (year + 1) ≤ leapDist year - 1 :=
    Nat.find_le hshift
  omega

/-- `get_next_leap_year` (source lines 627-632), by well-founded recursion
on the distance to the next leap year; totality of this definition is the
termination of the Python recursion. -/
def get_next_leap_year (year : Int) : Int :=
  let next_year := year + 1
  if h : is_leap_year next_year then next_year
  else get_next_leap_year next_year
termination_by leapDist year
decreasing_by
  exact leapDist_decreasing year h

lemma get_next_leap_year_eq (year : Int) :
    get_next_leap_year year =
      if is_leap_year (year + 1) then year + 1 else get_next_leap_year (year + 1) := by
  rw [get_next_leap_year]
  split <;> rfl

/-- Modelled from the spec: the per-identifier fuzzy score as the spec words
it — "up to three normalized comparisons (short-name alone; short-name +
parent-region; parent-region + short-name)", where the short name is the
last path component.  To be compared with `tzScore`, which is translated
from the source and compares component 1 rather than the last component. -/
def claimScore (fm : String → String → ℚ) (name target : String) : ℚ :=
  if (normalizeTz name).length = 1 then
    fm ((normalizeTz name).headD "") target
  else
    pyMax (fm ((normalizeTz name).getLastD "") target)
      (pyMax (fm ((normalizeTz name).getLastD "" ++ " " ++
          (normalizeTz name).getD ((normalizeTz name).length - 2) "") target)
        (fm ((normalizeTz name).getD ((normalizeTz name).length - 2) "" ++ " " ++
          (normalizeTz name).getLastD "") target))

/-- A concrete similarity function for witnesses and counterexamples: score
1 for equal strings, 0 otherwise.  It satisfies the properties the real
`fuzzy_match` ratio has: reflexively 1, bounded by 1, and 1 only on equal
strings. -/
def eqFm (a b : String) : ℚ := if a = b then 1 else 0

lemma eqFm_refl (s : String) : eqFm s s = 1 := by simp [eqFm]

lemma eqFm_le_one (a b : String) : eqFm a b ≤ 1 := by
  unfold eqFm; split <;> norm_num

lemma eqFm_eq_one (a b : String) (h : eqFm a b = 1) : a = b := by
  by_cases hab : a = b
  · exact hab
  · simp [eqFm, hab] at h

/-- Environment whose translation table maps "china" to an identifier that
`pytz.timezone` rejects. -/
def cexC1Env : TzEnv where
  astralTz := fun _ => none
  pytzValid := fun _ => false
  translations := [("china", "bogus")]
  allTimezones := []
  fm := fun _ _ => 0
  askYesNo := fun _ => "no"

/-- A benign environment for `get_timezone`: no astral hits, one valid
timezone, an empty translation table. -/
def benignTzEnv : TzEnv where
  astralTz := fun _ => none
  pytzValid := fun s => s == "UTC"
  translations := []
  allTimezones := ["UTC"]
  fm := fun _ _ => 0
  askYesNo := fun _ => "no"

/-- A benign environment for `_get_timezone`: configured home timezone,
geolocation service that never raises. -/
def benignLocEnv : LocEnv where
  configTzCode := some "America/Chicago"
  geo := fun _ => .ok (some "UTC")
  pytzValid := fun s => s == "America/Chicago" || s == "UTC"

/-- Environment where the astral city table knows "dallas". -/
def dallasEnv : TzEnv where
  astralTz := fun l => if l = "dallas" then some "America/Chicago" else none
  pytzValid := fun s => s == "America/Chicago"
  translations := []
  allTimezones := []
  fm := fun _ _ => 0
  askYesNo := fun _ => "no"

/-- Environment with a single fuzzy candidate scoring 1/2 and an affirmative
answerer, for the confirmation-prompt claim. -/
def confirmEnv : TzEnv where
  astralTz := fun _ => none
  pytzValid := fun s => s == "Chile/EasterIsland"
  translations := []
  allTimezones := ["Chile/EasterIsland"]
  fm := fun _ _ => mkRat 1 2
  askYesNo := fun _ => "yes"

/-- Environment whose only timezone has a three-component identifier; the
similarity function is `eqFm`. -/
def cexC5Env : TzEnv where
  astralTz := fun _ => none
  pytzValid := fun s => s == "America/North_Dakota/Center"
  translations := []
  allTimezones := ["America/North_Dakota/Center"]
  fm := eqFm
  askYesNo := fun _ => "no"

/-- Environment with two two-component identifiers and the `eqFm` scorer. -/
def sydneyEnv : TzEnv where
  astralTz := fun _ => none
  pytzValid := fun s => s == "Europe/London" || s == "Australia/Sydney"
  translations := []
  allTimezones := ["Europe/London", "Australia/Sydney"]
  fm := eqFm
  askYesNo := fun _ => "no"

/-- Environment whose geolocation service raises a non-`KeyError`
exception (e.g. a network error). -/
def cexC8Env : LocEnv where
  configTzCode := none
  geo := fun _ => .raise .other
  pytzValid := fun _ => true

/-- Environment whose geolocation response lacks the `timezone` field. -/
def missingFieldEnv : LocEnv where
  configTzCode := none
  geo := fun _ => .ok none
  pytzValid := fun _ => true

/-- A location pattern that never matches. -/
def patNever : String → MatchOutcome := fun _ => .noMatch

/-- A location pattern that matches every utterance but has no group named
`Location`. -/
def patNoGroup : String → MatchOutcome := fun _ => .indexError

/-- A location pattern capturing the word after " in " of one fixed
utterance. -/
def patInParis : String → MatchOutcome := fun u =>
  if u = "what time is it in paris" then .group (some "paris") else .noMatch

lemma fuzzyBest_append (fm : String → String → ℚ) (tzs : List String)
    (target : String) (x : String) :
    fuzzyBest fm (tzs ++ [x]) target =
      match fuzzyBest fm tzs target with
      | none => some (tzScore fm x target, x)
      | some b =>
        if tzScore fm x target ≥ b.1 then some (tzScore fm x target, x)
        else some b := by
  simp only [fuzzyBest, List.foldl_append, List.foldl_cons, List.foldl_nil]

/-- Characterization of the fuzzy loop: it returns the last identifier in
iteration order attaining the maximal score (every identifier after the
winner scores strictly less, every identifier overall scores no more). -/
lemma fuzzyBest_spec (fm : String → String → ℚ) (target : String) :
    ∀ tzs : List String, tzs ≠ [] →
      ∃ pre n suf, tzs = pre ++ n :: suf ∧
        fuzzyBest fm tzs target = some (tzScore fm n target, n) ∧
        (∀ x ∈ tzs, tzScore fm x target ≤ tzScore fm n target) ∧
        (∀ x ∈ suf, tzScore fm x target < tzScore fm n target) := by
  intro tzs
  induction tzs using List.reverseRecOn with
  | nil => intro h; exact absurd rfl h
  | append_singleton l x ih =>
    intro _
    rcases hl : l with _ | ⟨y, l'⟩
    · refine ⟨[], x, [], by simp, ?_, ?_, by simp⟩
      · simp [fuzzyBest]
      · intro z hz
        simp only [List.nil_append, List.mem_singleton] at hz
        subst hz; exact le_refl _
    · obtain ⟨pre, n, suf, hdecomp, hbest, hmax, hstrict⟩ := ih (by simp [hl])
      rw [← hl] at *
      by_cases hx : tzScore fm x target ≥ tzScore fm n target
      · refine ⟨l, x, [], by simp, ?_, ?_, by simp⟩
        · rw [fuzzyBest_append, hbest]
          simp [hx]
        · intro z hz
          rcases List.mem_append.mp hz with hz | hz
          · exact le_trans (hmax z hz) hx
          · simp only [List.mem_singleton] at hz
            subst hz; exact le_refl _
      · refine ⟨pre, n, suf ++ [x], by rw [hdecomp]; simp, ?_, ?_, ?_⟩
        · rw [fuzzyBest_append, hbest]
          simp [hx]
        · intro z hz
          rcases List.mem_append.mp hz with hz | hz
          · exact hmax z hz
          · simp only [List.mem_singleton] at hz
            subst hz; exact le_of_not_ge hx
        · intro z hz
          rcases List.mem_append.mp hz with hz | hz
          · exact hstrict z hz
          · simp only [List.mem_singleton] at hz
            subst hz; exact lt_of_not_ge hx

/-- The fuzzy loop only returns members of the identifier list. -/
lemma fuzzyBest_mem (fm : String → String → ℚ) (target : String)
    (tzs : List String) (p : ℚ) (n : String)
    (h : fuzzyBest fm tzs target = some (p, n)) : n ∈ tzs := by
  have hne : tzs ≠ [] := by
    intro he
    rw [he] at h
    simp [fuzzyBest] at h
  obtain ⟨pre, m, suf, hdecomp, hbest, -, -⟩ := fuzzyBest_spec fm target tzs hne
  rw [hbest] at h
  have hm : m = n := by
    have := Option.some.inj h
    exact (Prod.mk.injEq _ _ _ _ ▸ this).2
  rw [hdecomp, ← hm]
  exact List.mem_append_right _ (List.mem_cons_self _ _)

lemma pyMax_eq_max (a b : ℚ) : pyMax a b = max a b := by
  rw [pyMax, max_def]

/-- Scores are bounded by 1 whenever the similarity function is. -/
lemma tzScore_le_one (fm : String → String → ℚ)
    (hle : ∀ a b, fm a b ≤ 1) (name target : String) :
    tzScore fm name target ≤ 1 := by
  unfold tzScore
  simp only [pyMax_eq_max]
  split
  · exact hle _ _
  · exact max_le (hle _ _) (max_le (hle _ _) (hle _ _))

/-- A score of exactly 1 means one of the compared strings equals the
target, when the similarity function attains 1 only on equal strings. -/
lemma tzScore_eq_one_mem (fm : String → String → ℚ)
    (heq : ∀ a b, fm a b = 1 → a = b) (name target : String)
    (h : tzScore fm name target = 1) : target ∈ compStrings name := by
  unfold tzScore at h
  simp only [pyMax_eq_max] at h
  unfold compStrings
  by_cases hlen : (normalizeTz name).length = 1
  · rw [if_pos hlen] at h
    rw [if_pos hlen]
    rw [← heq _ _ h]
    exact List.mem_singleton.mpr rfl
  · rw [if_neg hlen] at h
    rw [if_neg hlen]
    rcases max_choice (fm ((normalizeTz name).getD 1 "") target)
        (max (fm ((normalizeTz name).getD ((normalizeTz name).length - 2) "" ++ " " ++
            (normalizeTz name).getLastD "") target)
          (fm ((normalizeTz name).getLastD "" ++ " " ++
            (normalizeTz name).getD ((normalizeTz name).length - 2) "") target)) with
      hc | hc
    · rw [hc] at h
      rw [← heq _ _ h]
      simp
    · rw [hc] at h
      rcases max_choice (fm ((normalizeTz name).getD ((normalizeTz name).length - 2) "" ++
            " " ++ (normalizeTz name).getLastD "") target)
          (fm ((normalizeTz name).getLastD "" ++ " " ++
            (normalizeTz name).getD ((normalizeTz name).length - 2) "") target) with
        hc2 | hc2
      · rw [hc2] at h
        rw [← heq _ _ h]
        simp
      · rw [hc2] at h
        rw [← heq _ _ h]
        simp

/-- C1 (amended): resolution never raises, except that the translated-value
tier's `pytz.timezone(timezones[timezone].strip())` is not guarded: provided
every translation value parses, every listed timezone identifier parses,
and the geolocation call raises nothing but `KeyError`, both `get_timezone`
and `_get_timezone` return normally on every input, degrading to `none`
instead of propagating an error. -/
theorem claim_c1 (envT : TzEnv) (envL : LocEnv) (locale : String)
    (location : Option String)
    (htrans : ∀ kv ∈ envT.translations, envT.pytzValid (pyStrip kv.2) = true)
    (htzs : ∀ n ∈ envT.allTimezones, envT.pytzValid n = true)
    (hgeo : ∀ loc e, envL.geo loc = .raise e → e = PyExc.keyError) :
    (get_timezone envT locale).isOk = true ∧
      (_get_timezone envL location).isOk = true := by
  constructor
  · rcases hd : directLookup envT locale with _ | tz
    · rcases ht : translatedLookup? envT.translations locale with _ | v
      · rcases hb : fuzzyBest envT.fm envT.allTimezones (pyLower locale) with
          _ | ⟨pct, name⟩
        · simp [get_timezone, hd, ht, fuzzyTier, hb, Except.isOk, Except.toBool]
        · have hv := htzs name (fuzzyBest_mem _ _ _ _ _ hb)
          simp only [get_timezone, hd, ht, fuzzyTier, hb]
          split_ifs <;> simp_all [Except.isOk, Except.toBool]
      · obtain ⟨kv, hkvmem, hkveq⟩ := List.exists_of_findSome?_eq_some ht
        have hv : kv.2 = v := by
          by_cases hc : pyLower locale = pyLower kv.1
          · rw [if_pos hc] at hkveq
            exact Option.some.inj hkveq
          · rw [if_neg hc] at hkveq
            exact absurd hkveq (by simp)
        have hok := htrans kv hkvmem
        rw [hv] at hok
        simp [get_timezone, hd, ht, hok, Except.isOk, Except.toBool]
    · simp [get_timezone, hd, Except.isOk, Except.toBool]
  · rcases location with _ | loc
    · rcases hc : envL.configTzCode with _ | c
      · simp [_get_timezone, hc, Except.isOk, Except.toBool]
      · cases hv : envL.pytzValid c <;>
          simp [_get_timezone, hc, hv, Except.isOk, Except.toBool]
    · rcases hg : envL.geo loc with tzf | e
      · rcases tzf with _ | code
        · simp [_get_timezone, hg, Except.isOk, Except.toBool]
        · cases hv : envL.pytzValid code <;>
            simp [_get_timezone, hg, hv, Except.isOk, Except.toBool]
      · have := hgeo loc e hg
        subst this
        simp [_get_timezone, hg, Except.isOk, Except.toBool]

/-- C1 witness: with a benign environment (empty translation table, valid
timezone list, geolocation that never raises) both resolvers return
normally, even on nonsense input. -/
theorem claim_c1_witness :
    (get_timezone benignTzEnv "gibberish123").isOk = true ∧
      (_get_timezone benignLocEnv (some "paris")).isOk = true :=
  claim_c1 benignTzEnv benignLocEnv "gibberish123" (some "paris")
    (by decide) (by decide)
    (by intro loc e h; simp [benignLocEnv] at h)

/-- C1 counterexample: the claim as stated is false — a translation-table
entry mapping "china" to an identifier `pytz.timezone` rejects makes
`get_timezone` propagate `UnknownTimeZoneError` to the caller instead of
treating it as "no match for this tier" (source line 143, which the code
itself annotates with "assumes translation is correct"). -/
theorem claim_c1_counterexample :
    get_timezone cexC1Env "china" =
      .error (.unknownTimeZone "bogus") := by rfl

/-- C2: `get_timezone` evaluates its tiers in the fixed order astral
geographic table, literal identifier, translated-value table, fuzzy match,
and short-circuits on the first success; on a direct-lookup hit the result
carries no prompts and is unchanged under any replacement of the
fuzzy-tier collaborators, so the fuzzy-matching code never runs. -/
theorem claim_c2 (env : TzEnv) (locale : String) :
    (∀ tz, astralLookup env locale = some tz →
      get_timezone env locale = .ok (some tz, [])) ∧
    (astralLookup env locale = none → env.pytzValid locale = true →
      get_timezone env locale = .ok (some locale, [])) ∧
    (directLookup env locale = none →
      ∀ v, translatedLookup? env.translations locale = some v →
        env.pytzValid (pyStrip v) = true →
        get_timezone env locale = .ok (some (pyStrip v), [])) ∧
    (directLookup env locale = none →
      translatedLookup? env.translations locale = none →
      get_timezone env locale = fuzzyTier env locale) ∧
    (∀ tz, directLookup env locale = some tz →
      ∀ fm2 tzs2 ask2,
        get_timezone
          { env with fm := fm2, allTimezones := tzs2, askYesNo := ask2 }
          locale = get_timezone env locale) := by
  refine ⟨?_, ?_, ?_, ?_, ?_⟩
  · intro tz h
    have hd : directLookup env locale = some tz := by
      simp [directLookup, h]
    simp [get_timezone, hd]
  · intro ha hv
    have hd : directLookup env locale = some locale := by
      simp [directLookup, ha, hv]
    simp [get_timezone, hd]
  · intro hd v ht hv
    simp [get_timezone, hd, ht, hv]
  · intro hd ht
    simp [get_timezone, hd, ht]
  · intro tz hd fm2 tzs2 ask2
    have hd2 : directLookup
        { env with fm := fm2, allTimezones := tzs2, askYesNo := ask2 }
        locale = some tz := hd
    simp [get_timezone, hd, hd2]

/-- C2 witness: "dallas" hits the astral tier and is returned immediately,
with no prompts, from an environment whose fuzzy components are inert. -/
theorem claim_c2_witness :
    get_timezone dallasEnv "dallas" = .ok (some "America/Chicago", []) :=
  (claim_c2 dallasEnv "dallas").1 "America/Chicago" (by decide)

/-- C3 (amended): in the fuzzy tier each identifier's score is `tzScore` —
the maximum of up to three comparisons, which for identifiers of three or
more components compares the SECOND component rather than the short name —
and the reported best is the last identifier in iteration order attaining
the maximal score: all identifiers score no more, and all identifiers after
the winner score strictly less (`pct >= best` semantics). -/
theorem claim_c3 (fm : String → String → ℚ) (tzs : List String)
    (target : String) (hne : tzs ≠ []) :
    ∃ pre n suf, tzs = pre ++ n :: suf ∧
      fuzzyBest fm tzs target = some (tzScore fm n target, n) ∧
      (∀ x ∈ tzs, tzScore fm x target ≤ tzScore fm n target) ∧
      (∀ x ∈ suf, tzScore fm x target < tzScore fm n target) :=
  fuzzyBest_spec fm target tzs hne

/-- C3 witness: on a two-element list where both identifiers attain the
maximal score 1, the later one wins. -/
theorem claim_c3_witness :
    (∃ pre n suf, ["Australia/Sydney", "Canada/Sydney"] = pre ++ n :: suf ∧
      fuzzyBest eqFm ["Australia/Sydney", "Canada/Sydney"] "sydney" =
        some (tzScore eqFm n "sydney", n) ∧
      (∀ x ∈ ["Australia/Sydney", "Canada/Sydney"],
        tzScore eqFm x "sydney" ≤ tzScore eqFm n "sydney") ∧
      (∀ x ∈ suf, tzScore eqFm x "sydney" < tzScore eqFm n "sydney")) ∧
    fuzzyBest eqFm ["Australia/Sydney", "Canada/Sydney"] "sydney" =
      some (1, "Canada/Sydney") :=
  ⟨claim_c3 eqFm ["Australia/Sydney", "Canada/Sydney"] "sydney" (by decide),
   by decide⟩

/-- C3 counterexample: the claim's description of the comparison set is
false on the code — for the three-component identifier
`America/North_Dakota/Center` and target "center", the score computed by
the code (which compares component 1, "north dakota") differs from the
claim's "short name alone" description. -/
theorem claim_c3_counterexample :
    tzScore eqFm "America/North_Dakota/Center" "center" ≠
      claimScore eqFm "America/North_Dakota/Center" "center" := by decide

/-- C4: when the best fuzzy score lies in (0.3, 0.8], `get_timezone` issues
exactly one confirmation prompt, speaking the `speakableName` rendering of
the candidate (camel-case boundaries split, separators replaced by spaces,
region hierarchy reversed), and returns the candidate iff the answer is
"yes", `none` on any other answer. -/
theorem claim_c4 (env : TzEnv) (locale : String) (pct : ℚ) (name : String)
    (hd : directLookup env locale = none)
    (ht : translatedLookup? env.translations locale = none)
    (hb : fuzzyBest env.fm env.allTimezones (pyLower locale) = some (pct, name))
    (hlow : mkRat 3 10 < pct) (hhigh : pct ≤ mkRat 4 5)
    (hvalid : env.pytzValid name = true) :
    get_timezone env locale =
      .ok ((if env.askYesNo (speakableName name) = "yes" then some name
        else none), [speakableName name]) := by
  have hnot : ¬ (mkRat 4 5 < pct) := not_lt.mpr hhigh
  by_cases hy : env.askYesNo (speakableName name) = "yes"
  · simp [get_timezone, hd, ht, fuzzyTier, hb, hnot, hlow, hy, hvalid]
  · simp [get_timezone, hd, ht, fuzzyTier, hb, hnot, hlow, hy]

/-- C4 witness: with a single candidate scoring 1/2 and an affirmative
answerer, `get_timezone` asks once with the speakable rendering
"Easter Island Chile" and returns the candidate. -/
theorem claim_c4_witness :
    get_timezone confirmEnv "easter" =
      .ok (some "Chile/EasterIsland", ["Easter Island Chile"]) := by
  have h := claim_c4 confirmEnv "easter" (mkRat 1 2) "Chile/EasterIsland"
    (by decide) (by decide) (by decide) (by decide) (by decide) (by decide)
  rw [h]
  rfl

/-- C5 (amended): for a location that case-insensitively equals the second
path component of a known TWO-component timezone identifier (its short
name), and with a similarity function that is 1 exactly on equal strings and
never exceeds 1, the fuzzy tier's best score is 1 > 0.8 and `get_timezone`
silently returns an identifier one of whose compared forms equals the
lowercased location.  (For identifiers of three or more components the code
compares the second component, not the short name, so a short-name match is
not auto-confirmed — see the counterexample.) -/
theorem claim_c5 (env : TzEnv) (locale : String)
    (hd : directLookup env locale = none)
    (ht : translatedLookup? env.translations locale = none)
    (hrefl : ∀ s, env.fm s s = 1)
    (hle : ∀ a b, env.fm a b ≤ 1)
    (heq : ∀ a b, env.fm a b = 1 → a = b)
    (hvalid : ∀ n ∈ env.allTimezones, env.pytzValid n = true)
    (m region : String) (hm : m ∈ env.allTimezones)
    (hm2 : normalizeTz m = [region, pyLower locale]) :
    ∃ n ∈ env.allTimezones,
      get_timezone env locale = .ok (some n, []) ∧
      pyLower locale ∈ compStrings n ∧
      fuzzyBest env.fm env.allTimezones (pyLower locale) = some (1, n) := by
  have hmscore : tzScore env.fm m (pyLower locale) = 1 := by
    unfold tzScore
    rw [hm2]
    rw [if_neg (by simp)]
    have e1 : [region, pyLower locale].getD 1 "" = pyLower locale := rfl
    have e2 : [region, pyLower locale].getD
        ([region, pyLower locale].length - 2) "" = region := rfl
    have e3 : [region, pyLower locale].getLastD "" = pyLower locale := rfl
    rw [e1, e2, e3, hrefl]
    rw [pyMax_eq_max, pyMax_eq_max]
    exact max_eq_left (max_le (hle _ _) (hle _ _))
  have hne : env.allTimezones ≠ [] := by
    intro h0
    rw [h0] at hm
    simp at hm
  obtain ⟨pre, n, suf, hdecomp, hbest, hmax, -⟩ :=
    fuzzyBest_spec env.fm (pyLower locale) env.allTimezones hne
  have hnmem : n ∈ env.allTimezones := by
    rw [hdecomp]
    exact List.mem_append_right _ (List.mem_cons_self _ _)
  have hscn : tzScore env.fm n (pyLower locale) = 1 := by
    refine le_antisymm (tzScore_le_one env.fm hle n _) ?_
    calc (1:ℚ) = tzScore env.fm m (pyLower locale) := hmscore.symm
      _ ≤ tzScore env.fm n (pyLower locale) := hmax m hm
  have hcomp := tzScore_eq_one_mem env.fm heq n (pyLower locale) hscn
  have hb1 : fuzzyBest env.fm env.allTimezones (pyLower locale) =
      some (1, n) := by rw [hbest, hscn]
  refine ⟨n, hnmem, ?_, hcomp, hb1⟩
  have hgt1 : mkRat 4 5 < (1:ℚ) := by decide
  simp [get_timezone, hd, ht, fuzzyTier, hb1, hgt1, hvalid n hnmem]

/-- C5 witness: "sydney" equals the short name of the two-component
identifier `Australia/Sydney`, which is silently returned with fuzzy score
1. -/
theorem claim_c5_witness :
    ∃ n ∈ sydneyEnv.allTimezones,
      get_timezone sydneyEnv "sydney" = .ok (some n, []) ∧
      pyLower "sydney" ∈ compStrings n ∧
      fuzzyBest sydneyEnv.fm sydneyEnv.allTimezones (pyLower "sydney") =
        some (1, n) :=
  claim_c5 sydneyEnv "sydney" (by decide) (by decide)
    (fun s => eqFm_refl s) (fun a b => eqFm_le_one a b)
    (fun a b h => eqFm_eq_one a b h) (by decide)
    "Australia/Sydney" "australia" (by decide) (by decide)

/-- C5 counterexample: the claim as stated is false — "center" equals the
short name (last path component) of the known identifier
`America/North_Dakota/Center`, yet `get_timezone` does not return it with a
score above 0.8: the code compares the identifier's SECOND component
("north dakota"), so with an equality-based scorer the score is 0 and
resolution returns `none` with no prompt. -/
theorem claim_c5_counterexample :
    "America/North_Dakota/Center" ∈ cexC5Env.allTimezones ∧
    (normalizeTz "America/North_Dakota/Center").getLastD "" =
      pyLower "center" ∧
    get_timezone cexC5Env "center" = .ok (none, []) := by
  refine ⟨by decide, by decide, ?_⟩
  rfl

/-- C6: `_extract_location` returns the `Location` capture of the first
pattern (in order) that matches and captures that group; a pattern that
matches but lacks the group raises `IndexError`, which is swallowed, and
later patterns are still tried; when no pattern matches the result is
`None` (never the empty string).  The hypothesis reflects the spec's
pattern data model: any `Location` group present in a matching pattern
participates in the match. -/
theorem claim_c6 (patterns : List (String → MatchOutcome)) (u : String)
    (hpart : ∀ p ∈ patterns, p u ≠ .group none) :
    _extract_location patterns u = .ok (firstCapture patterns u) := by
  induction patterns with
  | nil => rfl
  | cons p ps ih =>
    have hp := hpart p (List.mem_cons_self _ _)
    have hps : ∀ q ∈ ps, q u ≠ .group none :=
      fun q hq => hpart q (List.mem_cons_of_mem _ hq)
    cases hpu : p u with
    | noMatch =>
      have h1 : _extract_location (p :: ps) u = _extract_location ps u := by
        simp [_extract_location, hpu]
      have h2 : firstCapture (p :: ps) u = firstCapture ps u := by
        simp [firstCapture, List.findSome?_cons, hpu]
      rw [h1, h2]
      exact ih hps
    | indexError =>
      have h1 : _extract_location (p :: ps) u = _extract_location ps u := by
        simp [_extract_location, hpu]
      have h2 : firstCapture (p :: ps) u = firstCapture ps u := by
        simp [firstCapture, List.findSome?_cons, hpu]
      rw [h1, h2]
      exact ih hps
    | group s =>
      cases s with
      | none => exact absurd hpu hp
      | some str =>
        have h1 : _extract_location (p :: ps) u = .ok (some str) := by
          simp [_extract_location, hpu]
        have h2 : firstCapture (p :: ps) u = some str := by
          simp [firstCapture, List.findSome?_cons, hpu]
        rw [h1, h2]

/-- C6 witness: with a never-matching pattern, a matching pattern lacking
the group, and a capturing pattern, the capture of the third pattern is
returned; and on the concrete utterance the result is `some "paris"`, not
an error and not an empty string. -/
theorem claim_c6_witness :
    _extract_location [patNever, patNoGroup, patInParis]
      "what time is it in paris" = .ok (some "paris") := by
  have h := claim_c6 [patNever, patNoGroup, patInParis]
    "what time is it in paris"
    (by
      intro q hq
      simp only [List.mem_cons, List.not_mem_nil, or_false] at hq
      rcases hq with rfl | rfl | rfl <;> decide)
  rw [h]
  rfl

/-- C7: with no location, `_get_timezone` never consults the geolocation
service (its result is invariant under replacing it) and instead resolves
the configured home timezone code; a missing or invalid configured code
yields `none`. -/
theorem claim_c7 (env : LocEnv) :
    (∀ g, _get_timezone { env with geo := g } none = _get_timezone env none) ∧
    (env.configTzCode = none → _get_timezone env none = .ok (none, [none])) ∧
    (∀ c, env.configTzCode = some c → env.pytzValid c = false →
      _get_timezone env none = .ok (none, [none])) ∧
    (∀ c, env.configTzCode = some c → env.pytzValid c = true →
      _get_timezone env none = .ok (some c, [])) := by
  refine ⟨fun g => rfl, ?_, ?_, ?_⟩
  · intro hc
    simp [_get_timezone, hc]
  · intro c hc hv
    simp [_get_timezone, hc, hv]
  · intro c hc hv
    simp [_get_timezone, hc, hv]

/-- C7 witness: with a configured, valid home timezone the `None` location
resolves to it. -/
theorem claim_c7_witness :
    _get_timezone benignLocEnv none = .ok (some "America/Chicago", []) :=
  (claim_c7 benignLocEnv).2.2.2 "America/Chicago" rfl (by decide)

/-- C8 (amended): a geolocation failure signalled as `KeyError`, a missing
`timezone` field, or an unknown timezone code is treated as "timezone not
found" — `_get_timezone` returns `none` and speaks exactly one not-found
notification — and whenever `_get_timezone` returns normally it speaks that
notification exactly when the result is `none`; but a geolocation failure
raising any exception other than `KeyError` propagates to the caller (see
the counterexample). -/
theorem claim_c8 (env : LocEnv) (loc : String) :
    (env.geo loc = .raise .keyError →
      _get_timezone env (some loc) = .ok (none, [some loc])) ∧
    (env.geo loc = .ok none →
      _get_timezone env (some loc) = .ok (none, [some loc])) ∧
    (∀ code, env.geo loc = .ok (some code) → env.pytzValid code = false →
      _get_timezone env (some loc) = .ok (none, [some loc])) ∧
    (∀ location r ns, _get_timezone env location = .ok (r, ns) →
      (r = none ∧ ns = [location]) ∨ (∃ t, r = some t ∧ ns = [])) := by
  refine ⟨?_, ?_, ?_, ?_⟩
  · intro hg
    simp [_get_timezone, hg]
  · intro hg
    simp [_get_timezone, hg]
  · intro code hg hv
    simp [_get_timezone, hg, hv]
  · intro location r ns h
    rcases location with _ | l
    · rcases hc : env.configTzCode with _ | c
      · simp [_get_timezone, hc] at h
        left
        exact ⟨h.1.symm, h.2.symm⟩
      · by_cases hv : env.pytzValid c = true
        · simp [_get_timezone, hc, hv] at h
          right
          exact ⟨c, h.1.symm, h.2⟩
        · simp [_get_timezone, hc, hv] at h
          left
          exact ⟨h.1.symm, h.2.symm⟩
    · rcases hg : env.geo l with tzf | e
      · rcases tzf with _ | code
        · simp [_get_timezone, hg] at h
          left
          exact ⟨h.1.symm, h.2.symm⟩
        · by_cases hv : env.pytzValid code = true
          · simp [_get_timezone, hg, hv] at h
            right
            exact ⟨code, h.1.symm, h.2⟩
          · simp [_get_timezone, hg, hv] at h
            left
            exact ⟨h.1.symm, h.2.symm⟩
      · rcases e with code | _ | _
        · simp [_get_timezone, hg] at h
        · simp [_get_timezone, hg] at h
          left
          exact ⟨h.1.symm, h.2.symm⟩
        · simp [_get_timezone, hg] at h

/-- C8 witness: a geolocation response that lacks the `timezone` field is
treated as not-found, with exactly one spoken notification. -/
theorem claim_c8_witness :
    _get_timezone missingFieldEnv (some "london") =
      .ok (none, [some "london"]) :=
  (claim_c8 missingFieldEnv "london").2.1 rfl

/-- C8 counterexample: the claim as stated is false — the `try` block
catches only `KeyError`, so a geolocation call that raises any other
exception (e.g. a network error) propagates out of `_get_timezone` instead
of producing `none` plus a notification. -/
theorem claim_c8_counterexample :
    _get_timezone cexC8Env (some "paris") = .error .other := by rfl

lemma get_next_leap_year_spec (y : Int) :
    is_leap_year (get_next_leap_year y) = true ∧ y < get_next_leap_year y ∧
      ∀ z : Int, y < z → is_leap_year z = true → get_next_leap_year y ≤ z := by
  have main : ∀ n : Nat, ∀ w : Int, leapDist w = n →
      is_leap_year (get_next_leap_year w) = true ∧ w < get_next_leap_year w ∧
        ∀ z : Int, w < z → is_leap_year z = true → get_next_leap_year w ≤ z := by
    intro n
    induction n using Nat.strong_induction_on with
    | _ n ih =>
      intro w hw
      by_cases h : is_leap_year (w + 1) = true
      · rw [get_next_leap_year_eq, if_pos h]
        exact ⟨h, by omega, fun z hz _ => by omega⟩
      · have hdec : leapDist (w + 1) < n := hw ▸ leapDist_decreasing w h
        obtain ⟨h1, h2, h3⟩ := ih _ hdec (w + 1) rfl
        rw [get_next_leap_year_eq, if_neg h]
        refine ⟨h1, by omega, ?_⟩
        intro z hz hzl
        have hne : z ≠ w + 1 := fun e => h (e ▸ hzl)
        exact h3 z (by omega) hzl
  exact main (leapDist y) y rfl

/-- C9: the leap-year helpers satisfy the spec's examples —
`is_leap_year 2000`, not `1900`, `2024`, and
`get_next_leap_year 2024 = 2028` — and in general `is_leap_year y` holds
iff `y` is divisible by 400, or by 4 and not by 100. -/
theorem claim_c9 :
    is_leap_year 2000 = true ∧ is_leap_year 1900 = false ∧
    is_leap_year 2024 = true ∧ get_next_leap_year 2024 = 2028 ∧
    ∀ y : Int, is_leap_year y = true ↔ (400 ∣ y ∨ (4 ∣ y ∧ ¬ (100 ∣ y))) := by
  refine ⟨by decide, by decide, by decide, ?_, ?_⟩
  · rw [get_next_leap_year_eq, if_neg (by decide)]
    rw [show (2024:Int) + 1 = 2025 by norm_num]
    rw [get_next_leap_year_eq, if_neg (by decide)]
    rw [show (2025:Int) + 1 = 2026 by norm_num]
    rw [get_next_leap_year_eq, if_neg (by decide)]
    rw [show (2026:Int) + 1 = 2027 by norm_num]
    rw [get_next_leap_year_eq, if_pos (by decide)]
    norm_num
  · intro y
    simp only [is_leap_year, Bool.or_eq_true, Bool.and_eq_true, beq_iff_eq,
      bne_iff_ne, ne_eq]
    omega

/-- C9 witness: the general characterization applied at 2028. -/
theorem claim_c9_witness : is_leap_year 2028 = true :=
  (claim_c9.2.2.2.2 2028).mpr (Or.inr ⟨by norm_num, by norm_num⟩)

/-- C10: `get_next_leap_year` satisfies its recursion equation (so the
Python recursion terminates: the total function defined by well-founded
recursion on the distance to the next leap year agrees with it), and its
result is the least leap year strictly greater than the input — in
particular the input itself is never returned, even when it is a leap
year. -/
theorem claim_c10 (y : Int) :
    (get_next_leap_year y =
      if is_leap_year (y + 1) then y + 1 else get_next_leap_year (y + 1)) ∧
    is_leap_year (get_next_leap_year y) = true ∧
    y < get_next_leap_year y ∧
    ∀ z : Int, y < z → is_leap_year z = true → get_next_leap_year y ≤ z :=
  ⟨get_next_leap_year_eq y, (get_next_leap_year_spec y).1,
    (get_next_leap_year_spec y).2.1, (get_next_leap_year_spec y).2.2⟩

/-- C10 witness: at 2024 the result is a leap year above 2024 and at most
2028. -/
theorem claim_c10_witness :
    is_leap_year (get_next_leap_year 2024) = true ∧
      2024 < get_next_leap_year 2024 ∧ get_next_leap_year 2024 ≤ 2028 :=
  ⟨(claim_c10 2024).2.1, (claim_c10 2024).2.2.1,
    (claim_c10 2024).2.2.2 2028 (by decide) (by decide)⟩
